import Mathlib

/-!
# CartScreen: totals, checkout response handling and error classification

A shallow embedding of the logic of `src/screens/CartScreen.js`:
`getTotal`, the response-shape selection and validation inside
`ConfirmacCompra`, its `catch` block, and the busy flag
`confirmingPurchase`.

JavaScript values are embedded as the inductive type `JSVal`; a `throw`
is the `Except.error` side of `Except JSVal _`.  The arithmetic of `getTotal`
is IEEE-754 binary64 (`JSNum`, `roundDouble`).  Text that depends on the
JavaScript engine or on the locale (the wording of a `TypeError`, `String(v)`,
the rendered success alert) is a field of `Host`; a theorem that takes a host holds for every host, and
the evaluations at concrete inputs use `Host.sample`.
-/

namespace CartScreen

/-! ## JavaScript values -/

/-- JavaScript values that reach the screen: JSON data, `undefined`, and
`Error` instances (`error m` is an `Error` whose `message` is `m`).
An object lists its fields in lookup order. -/
inductive JSVal where
  | undefined : JSVal
  | null : JSVal
  | bool (b : Bool) : JSVal
  | num (n : Rat) : JSVal
  | str (s : String) : JSVal
  | arr (items : List JSVal) : JSVal
  | obj (fields : List (String × JSVal)) : JSVal
  | error (message : String) : JSVal

namespace JSVal

/-- JavaScript truthiness (`if (v)`, `!v`, `a && b`, `a || b`, `c ? x : y`). -/
def truthy : JSVal → Bool
  | undefined => false
  | null => false
  | bool b => b
  | num n => decide (n ≠ 0)
  | str s => decide (s ≠ "")
  | arr _ => true
  | obj _ => true
  | error _ => true

/-- The values on which a property read throws. -/
def nullish : JSVal → Bool
  | undefined => true
  | null => true
  | _ => false

/-- The value of `v.key` for a `v` that is neither `null` nor `undefined`,
for the keys this screen reads (`order`, `id`, `order_number`,
`whatsapp_sent`, `detail`, `message`, `cart_products`, `product`, `price`,
`quantity`): the field of an object, the message
of an `Error`, and `undefined` everywhere else. -/
def prop : JSVal → String → JSVal
  | obj fields, key => (fields.lookup key).getD undefined
  | error m, key => if key = "message" then str m else undefined
  | _, _ => undefined

/-- The JavaScript `a || b`. -/
def orElse (a b : JSVal) : JSVal := if a.truthy then a else b

end JSVal

/-- What the screen takes from the JavaScript host without fixing its text. -/
structure Host where
  /-- Message of the `TypeError` raised by reading property `key` of `v`
  when `v` is `null` or `undefined`. -/
  cannotRead : JSVal → String → String
  /-- Message of the `TypeError` raised by calling `v.key(...)` when
  `v.key` is not a function. -/
  notFunction : JSVal → String → String
  /-- The text `String(v)` of a value that is not a string. -/
  toStr : JSVal → String
  /-- The body of the success alert built from the order and the WhatsApp
  status line, or the value thrown while building it. -/
  successText : JSVal → String → Except JSVal String

/-- A host with fixed texts, for evaluating the model on concrete inputs. -/
def Host.sample : Host where
  cannotRead := fun _ key => "Cannot read property " ++ key
  notFunction := fun _ key => key ++ " is not a function"
  toStr := fun _ => "[object]"
  successText := fun _ status => .ok status

/-- The read `v.key`: a `TypeError` on `null` and `undefined`. -/
def readProp (H : Host) (v : JSVal) (key : String) : Except JSVal JSVal :=
  if v.nullish then .error (.error (H.cannotRead v key)) else .ok (v.prop key)

/-- The read `v?.key`. -/
def readOptional (v : JSVal) (key : String) : JSVal :=
  if v.nullish then .undefined else v.prop key

/-- The text of `v` inside a template string or as the argument of `new Error`. -/
def Host.text (H : Host) : JSVal → String
  | .str s => s
  | v => H.toStr v

/-! ## Strings -/

/-- Whether the characters `needle` start the characters `hay`. -/
def startsWithChars : List Char → List Char → Bool
  | [], _ => true
  | _ :: _, [] => false
  | a :: as, b :: bs => a == b && startsWithChars as bs

/-- Whether the characters `needle` occur contiguously in `hay`. -/
def includesChars (needle : List Char) : List Char → Bool
  | [] => needle.isEmpty
  | c :: cs => startsWithChars needle (c :: cs) || includesChars needle cs

/-- The method `String.prototype.includes`: `includes s sub` is `s.includes(sub)`. -/
def includes (s sub : String) : Bool := includesChars sub.toList s.toList

/-! ## Numbers

The arithmetic of `getTotal` is that of JavaScript Numbers, IEEE-754 binary64
with rounding to nearest, ties to even. -/

/-- A JavaScript Number.  `finite q` is the double of value `q` (with `finite 0`
the positive zero), `negZero` the negative zero. -/
inductive JSNum where
  | finite (q : Rat) : JSNum
  | negZero : JSNum
  | posInf : JSNum
  | negInf : JSNum
  | nan : JSNum
  deriving DecidableEq

/-- The number of binary digits of `n`, for `fuel` at least that number. -/
def bitLength : Nat → Nat → Nat
  | 0, _ => 0
  | fuel + 1, n => if n = 0 then 0 else 1 + bitLength fuel (n / 2)

/-- The ratio `t / b` rounded to an integer of at most 53 significant binary
digits, to nearest with ties to even: the low `d` digits beyond the 53rd are
dropped and the last kept digit is rounded. -/
def roundRatio (t b : Nat) : Nat :=
  let d := bitLength (t / b) (t / b) - 53
  let den := b * 2 ^ d
  let m := t / den
  let rem := t % den
  let up := if 2 * rem < den then m else if den < 2 * rem then m + 1
    else if m % 2 = 0 then m else m + 1
  up * 2 ^ d

/-- The double nearest to the rational `q`.  Every finite double is an integer
multiple of `2 ^ (-1074)` with at most 53 significant digits, so `q` is
rounded in that unit; a magnitude of `2 ^ 1024` or more overflows to an
infinity and a magnitude that rounds to nothing is a signed zero. -/
def roundDouble (q : Rat) : JSNum :=
  let u := roundRatio (q.num.natAbs * 2 ^ 1074) q.den
  if 2 ^ 2098 ≤ u then (if q.num < 0 then .negInf else .posInf)
  else if u = 0 then (if q.num < 0 then .negZero else .finite 0)
  else .finite (mkRat (if q.num < 0 then -(u : Int) else u) (2 ^ 1074))

namespace JSNum

/-- Whether the Number is `NaN`. -/
def isNaN : JSNum → Bool
  | nan => true
  | _ => false

/-- The sign bit of a Number that is not `NaN`. -/
def isNeg : JSNum → Bool
  | finite q => decide (q < 0)
  | negZero => true
  | negInf => true
  | _ => false

/-- The value of a finite Number. -/
def value? : JSNum → Option Rat
  | finite q => some q
  | negZero => some 0
  | _ => none

/-- The infinity of the sign of a product. -/
def signedInf (x y : JSNum) : JSNum := if x.isNeg != y.isNeg then negInf else posInf

/-- The JavaScript `x * y` on Numbers. -/
def mul (x y : JSNum) : JSNum :=
  if x.isNaN || y.isNaN then nan
  else
    match x.value?, y.value? with
    | some p, some q =>
      if p * q = 0 then (if x.isNeg != y.isNeg then negZero else finite 0)
      else roundDouble (p * q)
    | some p, none => if p = 0 then nan else signedInf x y
    | none, some q => if q = 0 then nan else signedInf x y
    | none, none => signedInf x y

/-- The JavaScript `x + y` on Numbers. -/
def add (x y : JSNum) : JSNum :=
  if x.isNaN || y.isNaN then nan
  else
    match x.value?, y.value? with
    | some p, some q =>
      if p + q = 0 then (if x.isNeg && y.isNeg then negZero else finite 0)
      else roundDouble (p + q)
    | some _, none => y
    | none, some _ => x
    | none, none => if x.isNeg == y.isNeg then x else nan

end JSNum

/-- The conversion `ToNumber` of the host on the values whose result depends
on parsing text or on `ToPrimitive`: strings, arrays, objects and `Error`s. -/
structure Coercion where
  toNumber : JSVal → Except JSVal JSNum

/-- A coercion for evaluating the model on concrete inputs. -/
def Coercion.sample : Coercion where
  toNumber := fun _ => .ok .nan

/-- The conversion `ToNumber` applied to an operand of `*`.  The Number
`num n` is the double nearest to `n`. -/
def toNumber (C : Coercion) : JSVal → Except JSVal JSNum
  | .undefined => .ok .nan
  | .null => .ok (.finite 0)
  | .bool b => .ok (.finite (if b then 1 else 0))
  | .num n => .ok (roundDouble n)
  | v => C.toNumber v

/-! ## TotalCalculator -/

/-- The expression `item.product.price * item.quantity` of the reducer. -/
def lineTotal (H : Host) (C : Coercion) (item : JSVal) : Except JSVal JSNum := do
  let product ← readProp H item "product"
  let price ← readProp H product "price"
  let quantity ← readProp H item "quantity"
  let a ← toNumber C price
  let b ← toNumber C quantity
  pure (a.mul b)

/-- The function `getTotal` over the held `cart`:
`if (!cart || !cart.cart_products) return 0` and then
`cart.cart_products.reduce((sum, item) => sum + ..., 0)`, which is a
`TypeError` when `cart_products` is not an array. -/
def getTotal (H : Host) (C : Coercion) (cart : JSVal) : Except JSVal JSNum := do
  if !cart.truthy then
    pure (.finite 0)
  else
    let products ← readProp H cart "cart_products"
    if !products.truthy then
      pure (.finite 0)
    else
      match products with
      | .arr items =>
        items.foldlM (fun sum item => do
          let line ← lineTotal H C item
          pure (sum.add line)) (.finite 0)
      | _ => throw (.error (H.notFunction products "reduce"))

/-! ## ResponseNormalizer

The block of `ConfirmacCompra` between `setShowModal(false)` and the success
alert: the choice of the order source and the final validation. -/

/-- The three values the variable `whatsappStatus` takes. -/
inductive WhatsappStatus where
  | unknown : WhatsappStatus
  | notified : WhatsappStatus
  | pending : WhatsappStatus
  deriving DecidableEq, Repr

/-- The status line shown for each value of `whatsappStatus`. -/
def WhatsappStatus.text : WhatsappStatus → String
  | .unknown => "⚠️ Estado de WhatsApp desconocido"
  | .notified => "📱 Vendedor notificado por WhatsApp exitosamente"
  | .pending => "⚠️ Pedido procesado correctamente (notificación WhatsApp pendiente)"

/-- Message of the `Error` thrown by the fallback branch (Opción 3). -/
def unexpectedShapeMessage : String := "Estructura de respuesta del servidor inesperada"

/-- Message of the `Error` thrown by the validation of `order.order_number`. -/
def incompleteOrderMessage : String :=
  "No se pudieron obtener los detalles completos del pedido"

/-- The failure `UnexpectedShape`: the `Error` of the fallback branch. -/
def UnexpectedShape : JSVal := .error unexpectedShapeMessage

/-- The failure `IncompleteOrder`: the `Error` of the validation. -/
def IncompleteOrder : JSVal := .error incompleteOrderMessage

/-- The choice of `order` and `whatsappStatus` from the response `data`:
`if (data.order) ... else if (data.id && data.order_number) ... else throw`. -/
def selectOrder (H : Host) (data : JSVal) : Except JSVal (JSVal × WhatsappStatus) := do
  let nested ← readProp H data "order"
  if nested.truthy then
    let sent ← readProp H data "whatsapp_sent"
    pure (nested, if sent.truthy then WhatsappStatus.notified else WhatsappStatus.pending)
  else
    let id ← readProp H data "id"
    let both ← if id.truthy then readProp H data "order_number" else pure id
    if both.truthy then
      pure (data, WhatsappStatus.notified)
    else
      throw UnexpectedShape

/-- The validation `if (!order || !order.order_number) throw ...`. -/
def validateOrder (H : Host) (order : JSVal) : Except JSVal Unit := do
  if !order.truthy then
    throw IncompleteOrder
  else
    let number ← readProp H order "order_number"
    if !number.truthy then throw IncompleteOrder else pure ()

/-- The normalizer: source selection followed by validation.  On success it
gives the order and the WhatsApp status; a failure is the value thrown. -/
def normalizeResponse (H : Host) (data : JSVal) : Except JSVal (JSVal × WhatsappStatus) := do
  let chosen ← selectOrder H data
  validateOrder H chosen.1
  pure chosen

/-! ## ErrorClassifier

The `catch` block of `ConfirmacCompra`. -/

/-- The branches of the `if` chain over `err.message`. -/
inductive ErrorCategory where
  | EmptyCart : ErrorCategory
  | InsufficientStock : ErrorCategory
  | Unauthorized : ErrorCategory
  | Unknown (message : String) : ErrorCategory
  deriving DecidableEq, Repr

/-- The `if` chain of the `catch` block, over the test `inc sub` standing for
`err.message.includes(sub)` and the text `raw` of `err.message`. -/
def classifyWith (inc : String → Bool) (raw : String) : ErrorCategory :=
  if inc "carrito está vacío" || inc "El carrito está vacío" then .EmptyCart
  else if inc "stock insuficiente" then .InsufficientStock
  else if inc "No autorizado" then .Unauthorized
  else .Unknown raw

/-- The error classifier on a message that is a string. -/
def ErrorClassifier (message : String) : ErrorCategory :=
  classifyWith (includes message) message

/-- The text each branch appends to `errorMessage`. -/
def ErrorCategory.text : ErrorCategory → String
  | .EmptyCart => "Tu carrito está vacío."
  | .InsufficientStock => "Stock insuficiente para algunos productos."
  | .Unauthorized => "Debes iniciar sesión para realizar compras."
  | .Unknown message => "Intenta nuevamente.\n\nDetalle del error: " ++ message

/-- The value of `errorMessage` for a classified failure. -/
def errorMessage (c : ErrorCategory) : String :=
  "No se pudo procesar tu compra. " ++ c.text

/-- A call of `Alert.alert(title, body, ...)`. -/
structure Alert where
  title : String
  body : String
  deriving DecidableEq, Repr

/-- The alert of the `catch` block for a classified failure. -/
def failureAlert (c : ErrorCategory) : Alert :=
  ⟨"❌ Error al procesar compra", errorMessage c⟩

/-- The method `m.includes` of the value `m` of `err.message`: the substring
test of a string, the membership test of an array, and a `TypeError` on
every other value. -/
def includesMethod (H : Host) (m : JSVal) : Except JSVal (String → Bool) :=
  match m with
  | .str s => .ok (includes s)
  | .arr items =>
    .ok (fun sub => items.any (fun v => match v with | .str t => t == sub | _ => false))
  | .undefined => .error (.error (H.cannotRead m "includes"))
  | .null => .error (.error (H.cannotRead m "includes"))
  | _ => .error (.error (H.notFunction m "includes"))

/-- The `catch (err)` block: reads `err.stack` and `err.message`, classifies,
and gives the alert it shows; a failure is the value the block itself throws. -/
def catchBlock (H : Host) (err : JSVal) : Except JSVal Alert := do
  let _ ← readProp H err "stack"
  let message ← readProp H err "message"
  let inc ← includesMethod H message
  pure (failureAlert (classifyWith inc (H.text message)))

/-! ## CheckoutOrchestrator

The component state, `fetchCart` and `ConfirmacCompra`.  An `async` function
is cut at each `await apiFetch(...)`: the part before the call, and the part
that runs once the call has settled. -/

/-- How a call of `apiFetch` settles: it resolves to `{ data, ok }` or throws. -/
inductive Reply where
  | resolved (data : JSVal) (ok : Bool) : Reply
  | threw (e : JSVal) : Reply

/-- The state of the component, with a log of what it did.
`cart` .. `confirmingPurchase` are the `useState` cells (`testingWhatsApp`,
which only the WhatsApp test button uses, is left out).  `alerts` are the
calls of `Alert.alert`, `requests` the calls of `apiFetch`, `busyWrites` the
calls of `setConfirmingPurchase`, `rejections` the values with which a
handler's promise was rejected.  `awaitingCheckout` counts the runs of
`ConfirmacCompra` suspended at the checkout call (the checkout requests in
flight), `awaitingRefresh` those suspended at `await fetchCart()`, and
`awaitingCart` the runs of `fetchCart` started outside a checkout. -/
structure Screen where
  cart : JSVal
  loading : Bool
  error : JSVal
  showModal : Bool
  confirmingPurchase : Bool
  alerts : List Alert
  requests : List String
  busyWrites : List Bool
  rejections : List JSVal
  awaitingCheckout : Nat
  awaitingRefresh : Nat
  awaitingCart : Nat

/-- The state at mount, before the effect runs. -/
def Screen.initial : Screen where
  cart := .null
  loading := true
  error := .null
  showModal := false
  confirmingPurchase := false
  alerts := []
  requests := []
  busyWrites := []
  rejections := []
  awaitingCheckout := 0
  awaitingRefresh := 0
  awaitingCart := 0

/-- The value `new Error(data?.detail || fallback)`. -/
def notOkError (H : Host) (data : JSVal) (fallback : String) : JSVal :=
  .error (H.text ((readOptional data "detail").orElse (.str fallback)))

/-- The part of `fetchCart` up to the call of `apiFetch`. -/
def fetchCartBegin (s : Screen) : Screen :=
  { s with loading := true, error := .null, requests := s.requests ++ ["GET /store/cart"] }

/-- The `try` block of `fetchCart` after the call: the state, and the value
thrown if any. -/
def fetchCartTry (H : Host) (s : Screen) : Reply → Screen × Option JSVal
  | .threw e => (s, some e)
  | .resolved data ok =>
    if !ok then (s, some (notOkError H data "Error al obtener el carrito"))
    else ({ s with cart := data }, none)

/-- The part of `fetchCart` after the call: `try`, `catch (err)` with
`setError(err.message)`, and `finally`.  The second component is the value
with which `fetchCart` itself throws. -/
def fetchCartResume (H : Host) (s : Screen) (reply : Reply) : Screen × Option JSVal :=
  let tried := fetchCartTry H s reply
  let caught : Screen × Option JSVal :=
    match tried.2 with
    | none => (tried.1, none)
    | some err =>
      match readProp H err "message" with
      | .ok m => ({ tried.1 with error := m }, none)
      | .error e => (tried.1, some e)
  ({ caught.1 with loading := false }, caught.2)

/-- How the `try` block of `ConfirmacCompra` goes on after the checkout call:
it reaches `await fetchCart()`, or it throws. -/
inductive TryStep where
  | reachedRefresh : TryStep
  | threw (e : JSVal) : TryStep

/-- The part of `ConfirmacCompra` up to the checkout call. -/
def ConfirmacCompraBegin (s : Screen) : Screen :=
  { s with
    confirmingPurchase := true
    busyWrites := s.busyWrites ++ [true]
    requests := s.requests ++ ["POST /store/cart/checkout"] }

/-- The `try` block of `ConfirmacCompra` from the settled checkout call to
`await fetchCart()`. -/
def ConfirmacCompraTry (H : Host) (s : Screen) : Reply → Screen × TryStep
  | .threw e => (s, .threw e)
  | .resolved data ok =>
    if !ok then (s, .threw (notOkError H data "Error al procesar la compra"))
    else
      let s1 := { s with showModal := false }
      match normalizeResponse H data with
      | .error e => (s1, .threw e)
      | .ok (order, status) =>
        match H.successText order status.text with
        | .error e => (s1, .threw e)
        | .ok body =>
          ({ s1 with alerts := s1.alerts ++ [⟨"🎉 Compra Confirmada", body⟩] }, .reachedRefresh)

/-- The `catch` and `finally` blocks of `ConfirmacCompra`, entered with the
value thrown by the `try` block if any. -/
def ConfirmacCompraEnd (H : Host) (s : Screen) (thrown : Option JSVal) : Screen :=
  let caught : Screen :=
    match thrown with
    | none => s
    | some err =>
      match catchBlock H err with
      | .ok alert => { s with alerts := s.alerts ++ [alert] }
      | .error e => { s with rejections := s.rejections ++ [e] }
  { caught with confirmingPurchase := false, busyWrites := caught.busyWrites ++ [false] }

/-- The checkout call of a suspended `ConfirmacCompra` settles: the run goes on
to `await fetchCart()` and is suspended there, or ends through `catch` and
`finally`. -/
def checkoutSettles (H : Host) (s : Screen) (reply : Reply) : Screen :=
  if s.awaitingCheckout = 0 then s
  else
    let tried := ConfirmacCompraTry H { s with awaitingCheckout := s.awaitingCheckout - 1 } reply
    match tried.2 with
    | .threw e => ConfirmacCompraEnd H tried.1 (some e)
    | .reachedRefresh =>
      { fetchCartBegin tried.1 with awaitingRefresh := tried.1.awaitingRefresh + 1 }

/-- The cart call of a `ConfirmacCompra` suspended at `await fetchCart()`
settles: `fetchCart` ends, then `ConfirmacCompra` ends. -/
def refreshSettles (H : Host) (s : Screen) (reply : Reply) : Screen :=
  if s.awaitingRefresh = 0 then s
  else
    let fetched := fetchCartResume H { s with awaitingRefresh := s.awaitingRefresh - 1 } reply
    ConfirmacCompraEnd H fetched.1 fetched.2

/-- One whole call of `fetchCart`, given how its cart call settles. -/
def fetchCart (H : Host) (s : Screen) (reply : Reply) : Screen × Option JSVal :=
  fetchCartResume H (fetchCartBegin s) reply

/-- One whole call of `ConfirmacCompra`, given how its checkout call and the
cart call of its `fetchCart()` settle. -/
def ConfirmacCompra (H : Host) (s : Screen) (checkout refresh : Reply) : Screen :=
  let tried := ConfirmacCompraTry H (ConfirmacCompraBegin s) checkout
  match tried.2 with
  | .threw e => ConfirmacCompraEnd H tried.1 (some e)
  | .reachedRefresh =>
    let fetched := fetchCart H tried.1 refresh
    ConfirmacCompraEnd H fetched.1 fetched.2

/-- A press on the button "Confirmar Pedido" of the modal:
`onPress={ConfirmacCompra}` with `disabled={confirmingPurchase}`.  A press
that goes through runs `ConfirmacCompra` up to its checkout call. -/
def pressConfirm (s : Screen) : Screen :=
  if s.confirmingPurchase then s
  else { ConfirmacCompraBegin s with awaitingCheckout := s.awaitingCheckout + 1 }

/-- The function `openConfirmModal`, over whether the held cart has items. -/
def openConfirmModal (s : Screen) (cartHasItems : Bool) : Screen :=
  if cartHasItems then { s with showModal := true }
  else { s with alerts := s.alerts ++
    [⟨"Carrito vacío", "Agrega productos a tu carrito para continuar"⟩] }

/-- A press on "Cancelar": `setShowModal(false)` with `disabled={confirmingPurchase}`. -/
def pressCancel (s : Screen) : Screen :=
  if s.confirmingPurchase then s else { s with showModal := false }

/-- A call of `fetchCart` from the mount effect or the button "Reintentar". -/
def fetchCartStart (s : Screen) : Screen :=
  { fetchCartBegin s with awaitingCart := s.awaitingCart + 1 }

/-- The cart call of such a `fetchCart` settles. -/
def cartSettles (H : Host) (s : Screen) (reply : Reply) : Screen :=
  if s.awaitingCart = 0 then s
  else
    let fetched := fetchCartResume H { s with awaitingCart := s.awaitingCart - 1 } reply
    match fetched.2 with
    | none => fetched.1
    | some e => { fetched.1 with rejections := fetched.1.rejections ++ [e] }

/-- What can happen to the mounted screen. -/
inductive Event where
  | pressConfirm : Event
  | pressCancel : Event
  | openConfirmModal (cartHasItems : Bool) : Event
  | fetchCartStart : Event
  | checkoutSettles (reply : Reply) : Event
  | refreshSettles (reply : Reply) : Event
  | cartSettles (reply : Reply) : Event

/-- The state after one event. -/
def step (H : Host) (s : Screen) : Event → Screen
  | .pressConfirm => pressConfirm s
  | .pressCancel => pressCancel s
  | .openConfirmModal b => openConfirmModal s b
  | .fetchCartStart => fetchCartStart s
  | .checkoutSettles reply => checkoutSettles H s reply
  | .refreshSettles reply => refreshSettles H s reply
  | .cartSettles reply => cartSettles H s reply

/-- The state after a sequence of events. -/
def run (H : Host) (s : Screen) (events : List Event) : Screen :=
  events.foldl (step H) s

/-! ## Theorems -/

/-! ### ResponseNormalizer -/

/-- A value with a truthy property is neither `null` nor `undefined`. -/
theorem nullish_of_prop_truthy (v : JSVal) (key : String)
    (h : (v.prop key).truthy = true) : v.nullish = false := by
  cases v <;> simp_all [JSVal.prop, JSVal.truthy, JSVal.nullish]

/-- A truthy value is neither `null` nor `undefined`. -/
theorem nullish_of_truthy (v : JSVal) (h : v.truthy = true) : v.nullish = false := by
  cases v <;> simp_all [JSVal.truthy, JSVal.nullish]

/-- Reading a property of a value that is neither `null` nor `undefined`
does not throw. -/
theorem readProp_ok (H : Host) (v : JSVal) (key : String) (h : v.nullish = false) :
    readProp H v key = .ok (v.prop key) := by
  simp [readProp, h]

/-- With a truthy `data.order` the source is the nested order and the status
follows the top-level `whatsapp_sent`. -/
theorem selectOrder_nested (H : Host) (data : JSVal)
    (h : (data.prop "order").truthy = true) :
    selectOrder H data
      = .ok (data.prop "order",
          if (data.prop "whatsapp_sent").truthy then WhatsappStatus.notified
          else WhatsappStatus.pending) := by
  have hn := nullish_of_prop_truthy data "order" h
  simp [selectOrder, readProp_ok H data _ hn, h, bind, Except.bind, pure, Except.pure]

/-- With a falsy `data.order` and truthy `data.id` and `data.order_number` the
source is the payload itself and the status is `notified`. -/
theorem selectOrder_flat (H : Host) (data : JSVal)
    (h0 : (data.prop "order").truthy = false)
    (h1 : (data.prop "id").truthy = true)
    (h2 : (data.prop "order_number").truthy = true) :
    selectOrder H data = .ok (data, WhatsappStatus.notified) := by
  have hn := nullish_of_prop_truthy data "id" h1
  simp [selectOrder, readProp_ok H data _ hn, h0, h1, h2, bind, Except.bind, pure, Except.pure]

/-- With a falsy `data.order` and a falsy `data.id && data.order_number` the
selection throws `UnexpectedShape`. -/
theorem selectOrder_fallback (H : Host) (data : JSVal) (hn : data.nullish = false)
    (h0 : (data.prop "order").truthy = false)
    (h12 : (data.prop "id").truthy = false ∨ (data.prop "order_number").truthy = false) :
    selectOrder H data = .error UnexpectedShape := by
  rcases h12 with h | h
  · simp [selectOrder, readProp_ok H data _ hn, h0, h, bind, Except.bind, pure, Except.pure,
      throw, throwThe, MonadExceptOf.throw]
  · by_cases h1 : (data.prop "id").truthy = true
    · simp [selectOrder, readProp_ok H data _ hn, h0, h, h1, bind, Except.bind, pure,
        Except.pure, throw, throwThe, MonadExceptOf.throw]
    · simp only [Bool.not_eq_true] at h1
      simp [selectOrder, readProp_ok H data _ hn, h0, h1, bind, Except.bind, pure,
        Except.pure, throw, throwThe, MonadExceptOf.throw]

/-- The validation accepts exactly the orders with a truthy `order_number`. -/
theorem validateOrder_eq (H : Host) (order : JSVal) (h : order.truthy = true) :
    validateOrder H order
      = if (order.prop "order_number").truthy then .ok () else .error IncompleteOrder := by
  have hn := nullish_of_truthy order h
  by_cases hnum : (order.prop "order_number").truthy = true
  · simp [validateOrder, readProp_ok H order _ hn, h, hnum, bind, Except.bind, pure,
      Except.pure]
  · simp only [Bool.not_eq_true] at hnum
    simp [validateOrder, readProp_ok H order _ hn, h, hnum, bind, Except.bind, pure,
      Except.pure, throw, throwThe, MonadExceptOf.throw]

/-- The normalizer in terms of its two stages. -/
theorem normalizeResponse_of_select (H : Host) (data order : JSVal) (status : WhatsappStatus)
    (hsel : selectOrder H data = .ok (order, status)) (h : order.truthy = true) :
    normalizeResponse H data
      = if (order.prop "order_number").truthy then .ok (order, status)
        else .error IncompleteOrder := by
  simp only [normalizeResponse, hsel, bind, Except.bind, validateOrder_eq H order h]
  by_cases hnum : (order.prop "order_number").truthy = true
  · simp [hnum, pure, Except.pure]
  · simp only [Bool.not_eq_true] at hnum
    simp [hnum]

/-- Every selected order source is truthy. -/
theorem selectOrder_truthy (H : Host) (data order : JSVal) (status : WhatsappStatus)
    (hsel : selectOrder H data = .ok (order, status)) : order.truthy = true := by
  by_cases hn : data.nullish = true
  · simp [selectOrder, readProp, hn, bind, Except.bind] at hsel
  · simp only [Bool.not_eq_true] at hn
    by_cases h0 : (data.prop "order").truthy = true
    · rw [selectOrder_nested H data h0] at hsel
      simp only [Except.ok.injEq, Prod.mk.injEq] at hsel
      rw [← hsel.1]; exact h0
    · simp only [Bool.not_eq_true] at h0
      by_cases h1 : (data.prop "id").truthy = true
      · by_cases h2 : (data.prop "order_number").truthy = true
        · rw [selectOrder_flat H data h0 h1 h2] at hsel
          simp only [Except.ok.injEq, Prod.mk.injEq] at hsel
          rw [← hsel.1]
          cases data <;> simp_all [JSVal.prop, JSVal.truthy, JSVal.nullish]
        · simp only [Bool.not_eq_true] at h2
          rw [selectOrder_fallback H data hn h0 (Or.inr h2)] at hsel
          cases hsel
      · simp only [Bool.not_eq_true] at h1
        rw [selectOrder_fallback H data hn h0 (Or.inl h1)] at hsel
        cases hsel

/-- C2 (as stated, refuted): the payload
`{order: null, id: 7, order_number: "A2", whatsapp_sent: false}` has an `order`
field and a top-level `whatsapp_sent` of `false`, yet the order source is the
whole payload and the status is the optimistic `notified` of the flattened
branch. -/
theorem nested_null_takes_flat_branch :
    ([("order", JSVal.null), ("id", JSVal.num 7), ("order_number", JSVal.str "A2"),
        ("whatsapp_sent", JSVal.bool false)].lookup "order" = some JSVal.null) ∧
    normalizeResponse Host.sample
        (.obj [("order", .null), ("id", .num 7), ("order_number", .str "A2"),
          ("whatsapp_sent", .bool false)])
      = .ok (.obj [("order", .null), ("id", .num 7), ("order_number", .str "A2"),
          ("whatsapp_sent", .bool false)], WhatsappStatus.notified) := by
  exact ⟨rfl, rfl⟩

/-- C2 (amended): for every payload whose `order` field is truthy, whatever
else the payload carries (a top-level `id` and `order_number` included), the
order source is the nested `order` and the status follows the top-level
`whatsapp_sent`: `true` gives `notified`, `false` or absent gives `pending`;
the normalizer then succeeds with that source and status, or throws
`IncompleteOrder`. -/
theorem nested_order_wins (H : Host) (data : JSVal)
    (h : (data.prop "order").truthy = true) :
    selectOrder H data
      = .ok (data.prop "order",
          if (data.prop "whatsapp_sent").truthy then WhatsappStatus.notified
          else WhatsappStatus.pending) ∧
    (data.prop "whatsapp_sent" = .bool true →
      selectOrder H data = .ok (data.prop "order", WhatsappStatus.notified)) ∧
    (data.prop "whatsapp_sent" = .bool false ∨ data.prop "whatsapp_sent" = .undefined →
      selectOrder H data = .ok (data.prop "order", WhatsappStatus.pending)) ∧
    normalizeResponse H data
      = (if ((data.prop "order").prop "order_number").truthy then
          .ok (data.prop "order",
            if (data.prop "whatsapp_sent").truthy then WhatsappStatus.notified
            else WhatsappStatus.pending)
        else .error IncompleteOrder) := by
  have hsel := selectOrder_nested H data h
  refine ⟨hsel, ?_, ?_, normalizeResponse_of_select H data _ _ hsel h⟩
  · intro ht
    rw [hsel, ht]; rfl
  · intro hf
    rw [hsel]
    rcases hf with hf | hf <;> rw [hf] <;> rfl

/-- Witness of `nested_order_wins`: a payload with a nested order, a top-level
`id` and `order_number`, and no `whatsapp_sent`. -/
theorem nested_order_wins_witness :
    normalizeResponse Host.sample
        (.obj [("order", .obj [("order_number", .str "A1")]), ("id", .num 7),
          ("order_number", .str "A2")])
      = .ok (.obj [("order_number", .str "A1")], WhatsappStatus.pending) := by
  have h := (nested_order_wins Host.sample
    (.obj [("order", .obj [("order_number", .str "A1")]), ("id", .num 7),
      ("order_number", .str "A2")]) rfl).2.2.2
  rw [h]; rfl

/-- C3 (as stated, refuted): for `{order: {order_number: "A1", whatsapp_sent: true}}`
the status is `pending`, not `notified`. -/
theorem nested_flag_ignored :
    normalizeResponse Host.sample
        (.obj [("order", .obj [("order_number", .str "A1"), ("whatsapp_sent", .bool true)])])
      = .ok (.obj [("order_number", .str "A1"), ("whatsapp_sent", .bool true)],
          WhatsappStatus.pending) ∧
    WhatsappStatus.pending ≠ WhatsappStatus.notified := by
  exact ⟨rfl, by decide⟩

/-- C3 (amended): normalizing `{order: {order_number: "A1", whatsapp_sent: true}}`
succeeds with the nested order, whose order number is `"A1"`, and with status
`pending`: the flag is read at the top level of the payload, where it is absent. -/
theorem nested_flag_payload_pending (H : Host) :
    normalizeResponse H
        (.obj [("order", .obj [("order_number", .str "A1"), ("whatsapp_sent", .bool true)])])
      = .ok (.obj [("order_number", .str "A1"), ("whatsapp_sent", .bool true)],
          WhatsappStatus.pending) ∧
    (JSVal.obj [("order_number", .str "A1"), ("whatsapp_sent", .bool true)]).prop "order_number"
      = .str "A1" ∧
    (JSVal.obj [("order", .obj [("order_number", .str "A1"), ("whatsapp_sent", .bool true)])]).prop
      "whatsapp_sent" = .undefined := by
  exact ⟨rfl, rfl, rfl⟩

/-- C4 (as stated, refuted): `{id: 0, order_number: "A2"}` and
`{id: 7, order_number: ""}` carry both fields and have no `order`, yet the
normalizer throws `UnexpectedShape`. -/
theorem zero_id_rejected :
    normalizeResponse Host.sample (.obj [("id", .num 0), ("order_number", .str "A2")])
      = .error UnexpectedShape ∧
    normalizeResponse Host.sample (.obj [("id", .num 7), ("order_number", .str "")])
      = .error UnexpectedShape := by
  exact ⟨rfl, rfl⟩

/-- C4 (amended): for every payload whose `order` field is absent or falsy and
whose `id` and `order_number` are both truthy, the normalizer succeeds with the
whole payload as the order and with status `notified`. -/
theorem flat_payload_notified (H : Host) (data : JSVal)
    (h0 : (data.prop "order").truthy = false)
    (h1 : (data.prop "id").truthy = true)
    (h2 : (data.prop "order_number").truthy = true) :
    normalizeResponse H data = .ok (data, WhatsappStatus.notified) := by
  have hsel := selectOrder_flat H data h0 h1 h2
  rw [normalizeResponse_of_select H data _ _ hsel (selectOrder_truthy H data _ _ hsel), h2]
  rfl

/-- Witness of `flat_payload_notified`: `{id: 7, order_number: "A2"}` gives the
payload itself, with order number `"A2"`, and status `notified`. -/
theorem flat_payload_notified_witness :
    normalizeResponse Host.sample (.obj [("id", .num 7), ("order_number", .str "A2")])
      = .ok (.obj [("id", .num 7), ("order_number", .str "A2")], WhatsappStatus.notified) ∧
    (JSVal.obj [("id", .num 7), ("order_number", .str "A2")]).prop "order_number"
      = .str "A2" :=
  ⟨flat_payload_notified Host.sample (.obj [("id", .num 7), ("order_number", .str "A2")])
    rfl (by decide) (by decide), rfl⟩

/-- C5 (as stated, refuted): the payload `null` has no `order`, no `id` and no
`order_number`, yet the normalizer throws the `TypeError` of reading
`data.order`, which is not the shape-mismatch `Error`. -/
theorem null_payload_type_error :
    JSVal.null.prop "order" = .undefined ∧
    JSVal.null.prop "id" = .undefined ∧
    normalizeResponse Host.sample .null
      = .error (.error (Host.sample.cannotRead .null "order")) ∧
    Host.sample.cannotRead .null "order" ≠ unexpectedShapeMessage ∧
    normalizeResponse Host.sample .null ≠ .error UnexpectedShape := by
  refine ⟨rfl, rfl, rfl, by decide, ?_⟩
  intro h
  have hmsg : Host.sample.cannotRead .null "order" = unexpectedShapeMessage := by
    have h2 : (Except.error (JSVal.error (Host.sample.cannotRead .null "order"))
        : Except JSVal (JSVal × WhatsappStatus)) = .error UnexpectedShape := h
    simpa [UnexpectedShape] using h2
  exact absurd hmsg (by decide)

/-- C5 (amended): for every payload other than `null` and `undefined` that
has no `order` field and lacks `id` or `order_number`, the normalizer gives no
order and throws `UnexpectedShape`. -/
theorem no_shape_rejected (H : Host) (data : JSVal) (hn : data.nullish = false)
    (h0 : data.prop "order" = .undefined)
    (h12 : data.prop "id" = .undefined ∨ data.prop "order_number" = .undefined) :
    normalizeResponse H data = .error UnexpectedShape ∧
    ∀ order status, normalizeResponse H data ≠ .ok (order, status) := by
  have hsel : selectOrder H data = .error UnexpectedShape := by
    apply selectOrder_fallback H data hn
    · rw [h0]; rfl
    · rcases h12 with h | h
      · left; rw [h]; rfl
      · right; rw [h]; rfl
  have hnorm : normalizeResponse H data = .error UnexpectedShape := by
    simp [normalizeResponse, hsel, bind, Except.bind]
  refine ⟨hnorm, fun order status hok => ?_⟩
  rw [hnorm] at hok
  cases hok

/-- Witness of `no_shape_rejected`: the empty object. -/
theorem no_shape_rejected_witness :
    normalizeResponse Host.sample (.obj []) = .error UnexpectedShape :=
  (no_shape_rejected Host.sample (.obj []) rfl rfl (Or.inl rfl)).1

/-- The two failures of the normalizer are different values. -/
theorem incompleteOrder_ne_unexpectedShape : IncompleteOrder ≠ UnexpectedShape := by
  intro h
  have hm : incompleteOrderMessage = unexpectedShapeMessage := by
    simpa [IncompleteOrder, UnexpectedShape] using h
  exact absurd hm (by decide)

/-- Every success of the normalizer carries an order with a truthy
`order_number`. -/
theorem success_has_truthy_number (H : Host) (d o : JSVal) (st : WhatsappStatus)
    (hok : normalizeResponse H d = .ok (o, st)) : (o.prop "order_number").truthy = true := by
  cases hs : selectOrder H d with
  | error e => simp [normalizeResponse, hs, bind, Except.bind] at hok
  | ok chosen =>
    obtain ⟨o2, st2⟩ := chosen
    rw [normalizeResponse_of_select H d o2 st2 hs (selectOrder_truthy H d o2 st2 hs)] at hok
    by_cases hn : (o2.prop "order_number").truthy = true
    · simp only [hn, if_true, Except.ok.injEq, Prod.mk.injEq] at hok
      rw [← hok.1]; exact hn
    · simp only [Bool.not_eq_true] at hn
      simp [hn] at hok

/-- C6 (as stated, refuted): the flattened payload `{id: 7, order_number: ""}`
fails with `UnexpectedShape`, not `IncompleteOrder`; and the payloads
`{order: {order_number: []}}` and `{order: {order_number: true}}` succeed
although their order number is an empty array and a boolean. -/
theorem flat_empty_number_is_shape_error :
    normalizeResponse Host.sample (.obj [("id", .num 7), ("order_number", .str "")])
      = .error UnexpectedShape ∧
    UnexpectedShape ≠ IncompleteOrder ∧
    normalizeResponse Host.sample (.obj [("order", .obj [("order_number", .arr [])])])
      = .ok (.obj [("order_number", .arr [])], WhatsappStatus.pending) ∧
    normalizeResponse Host.sample (.obj [("order", .obj [("order_number", .bool true)])])
      = .ok (.obj [("order_number", .bool true)], WhatsappStatus.pending) := by
  exact ⟨rfl, fun h => incompleteOrder_ne_unexpectedShape h.symm, rfl, rfl⟩

/-- C6 (amended): for every payload whose nested `order` is truthy, and so is
the order source, but whose `order_number` is absent, empty or otherwise
falsy, the normalizer throws `IncompleteOrder`, which is not
`UnexpectedShape`; a payload other than `null` and `undefined` with a falsy
`order` either succeeds as the flattened order or throws `UnexpectedShape`,
never `IncompleteOrder`; and every success carries an order whose
`order_number` is truthy, so neither absent nor `null` nor the empty string. -/
theorem incomplete_nested_order_rejected (H : Host) (data : JSVal)
    (hnested : (data.prop "order").truthy = true)
    (hnum : ((data.prop "order").prop "order_number").truthy = false) :
    normalizeResponse H data = .error IncompleteOrder ∧
    IncompleteOrder ≠ UnexpectedShape ∧
    (∀ d : JSVal, d.nullish = false → (d.prop "order").truthy = false →
      normalizeResponse H d = .ok (d, WhatsappStatus.notified) ∨
      normalizeResponse H d = .error UnexpectedShape) ∧
    ∀ (d o : JSVal) (st : WhatsappStatus), normalizeResponse H d = .ok (o, st) →
      (o.prop "order_number").truthy = true ∧
      o.prop "order_number" ≠ .undefined ∧
      o.prop "order_number" ≠ .null ∧
      o.prop "order_number" ≠ .str "" := by
  refine ⟨?_, incompleteOrder_ne_unexpectedShape, ?_, ?_⟩
  · rw [normalizeResponse_of_select H data _ _ (selectOrder_nested H data hnested) hnested,
      hnum]
    rfl
  · intro d hn h0
    by_cases h1 : (d.prop "id").truthy = true
    · by_cases h2 : (d.prop "order_number").truthy = true
      · left
        have hsel := selectOrder_flat H d h0 h1 h2
        rw [normalizeResponse_of_select H d _ _ hsel (selectOrder_truthy H d _ _ hsel), h2]
        rfl
      · right
        simp only [Bool.not_eq_true] at h2
        simp [normalizeResponse, selectOrder_fallback H d hn h0 (Or.inr h2), bind, Except.bind]
    · right
      simp only [Bool.not_eq_true] at h1
      simp [normalizeResponse, selectOrder_fallback H d hn h0 (Or.inl h1), bind, Except.bind]
  · intro d o st hok
    have htr := success_has_truthy_number H d o st hok
    refine ⟨htr, ?_, ?_, ?_⟩ <;> intro hv <;> rw [hv] at htr <;> revert htr <;> decide

/-- Witness of `incomplete_nested_order_rejected`: the payload `{order: {}}`. -/
theorem incomplete_nested_order_rejected_witness :
    normalizeResponse Host.sample (.obj [("order", .obj [])]) = .error IncompleteOrder :=
  (incomplete_nested_order_rejected Host.sample (.obj [("order", .obj [])]) rfl rfl).1

/-! ### ErrorClassifier -/

/-- The test `startsWithChars` decides the prefix relation. -/
theorem startsWithChars_iff (needle hay : List Char) :
    startsWithChars needle hay = true ↔ needle <+: hay := by
  induction needle generalizing hay with
  | nil => simp [startsWithChars]
  | cons a rest ih =>
    cases hay with
    | nil => simp [startsWithChars]
    | cons b bs => simp [startsWithChars, ih, List.cons_prefix_cons]

/-- The test `includesChars` decides the contiguous-sublist relation. -/
theorem includesChars_iff (needle hay : List Char) :
    includesChars needle hay = true ↔ needle <:+: hay := by
  induction hay with
  | nil => simp [includesChars]
  | cons c cs ih =>
    rw [List.infix_cons_iff, ← ih, ← startsWithChars_iff]
    simp [includesChars]

/-- A message that includes `outer` includes every text that `outer` includes. -/
theorem includes_of_includes (message outer inner : String)
    (hio : includes outer inner = true) (hmo : includes message outer = true) :
    includes message inner = true := by
  unfold includes at *
  rw [includesChars_iff] at *
  exact List.IsInfix.trans hio hmo

/-- The second test of the first branch adds nothing to the first. -/
theorem second_test_redundant (message : String)
    (h : includes message "carrito está vacío" = false) :
    includes message "El carrito está vacío" = false := by
  by_contra hc
  simp only [Bool.not_eq_false] at hc
  have := includes_of_includes message "El carrito está vacío" "carrito está vacío"
    (by decide) hc
  rw [h] at this
  cases this

/-- The `catch` block on an `Error` shows the alert of its classified message. -/
theorem catchBlock_error (H : Host) (message : String) :
    catchBlock H (.error message) = .ok (failureAlert (ErrorClassifier message)) := by
  simp [catchBlock, readProp, JSVal.nullish, JSVal.prop, includesMethod, Host.text,
    ErrorClassifier, bind, Except.bind, pure, Except.pure]

/-- C7: for every message the classifier gives the category of the first
text that occurs in it, in the order "carrito está vacío", "stock
insuficiente", "No autorizado", and `Unknown` with the message itself when
none occurs; the `catch` block shows the alert of that category, which for
`Unknown` ends with the message verbatim. -/
theorem classifier_first_match (message : String) :
    (includes message "carrito está vacío" = true →
      ErrorClassifier message = .EmptyCart) ∧
    (includes message "carrito está vacío" = false →
      includes message "stock insuficiente" = true →
      ErrorClassifier message = .InsufficientStock) ∧
    (includes message "carrito está vacío" = false →
      includes message "stock insuficiente" = false →
      includes message "No autorizado" = true →
      ErrorClassifier message = .Unauthorized) ∧
    (includes message "carrito está vacío" = false →
      includes message "stock insuficiente" = false →
      includes message "No autorizado" = false →
      ErrorClassifier message = .Unknown message ∧
      errorMessage (ErrorClassifier message)
        = "No se pudo procesar tu compra. Intenta nuevamente.\n\nDetalle del error: "
          ++ message) ∧
    (∀ H : Host,
      catchBlock H (.error message) = .ok (failureAlert (ErrorClassifier message))) ∧
    ErrorClassifier "El carrito está vacío" = .EmptyCart ∧
    ErrorClassifier "stock insuficiente para X" = .InsufficientStock ∧
    ErrorClassifier "No autorizado" = .Unauthorized ∧
    ErrorClassifier "boom" = .Unknown "boom" ∧
    ErrorClassifier "No autorizado: stock insuficiente" = .InsufficientStock ∧
    ErrorClassifier "stock insuficiente y el carrito está vacío" = .EmptyCart := by
  refine ⟨?_, ?_, ?_, ?_, fun H => catchBlock_error H message, by decide, by decide,
    by decide, by decide, by decide, by decide⟩
  · intro h1
    simp [ErrorClassifier, classifyWith, h1]
  · intro h1 h2
    simp [ErrorClassifier, classifyWith, h1, second_test_redundant message h1, h2]
  · intro h1 h2 h3
    simp [ErrorClassifier, classifyWith, h1, second_test_redundant message h1, h2, h3]
  · intro h1 h2 h3
    have hc : ErrorClassifier message = .Unknown message := by
      simp [ErrorClassifier, classifyWith, h1, second_test_redundant message h1, h2, h3]
    refine ⟨hc, ?_⟩
    rw [hc]
    simp only [errorMessage, ErrorCategory.text]
    rw [← String.append_assoc]
    rfl

/-! ### CheckoutOrchestrator -/

/-- The `try` block of `ConfirmacCompra` leaves the busy flag, its write log
and the counters of suspended runs as they are. -/
theorem ConfirmacCompraTry_frame (H : Host) (s : Screen) (reply : Reply) :
    (ConfirmacCompraTry H s reply).1.confirmingPurchase = s.confirmingPurchase ∧
    (ConfirmacCompraTry H s reply).1.busyWrites = s.busyWrites ∧
    (ConfirmacCompraTry H s reply).1.awaitingCheckout = s.awaitingCheckout ∧
    (ConfirmacCompraTry H s reply).1.awaitingRefresh = s.awaitingRefresh := by
  cases reply with
  | threw e => simp [ConfirmacCompraTry]
  | resolved data ok =>
    cases ok
    · simp [ConfirmacCompraTry]
    · cases hnorm : normalizeResponse H data with
      | error e => simp [ConfirmacCompraTry, hnorm]
      | ok chosen =>
        obtain ⟨order, status⟩ := chosen
        cases htext : H.successText order status.text <;>
          simp [ConfirmacCompraTry, hnorm, htext]

/-- The part of `fetchCart` after its call leaves the busy flag, its write log
and the counters of suspended runs as they are. -/
theorem fetchCartResume_frame (H : Host) (s : Screen) (reply : Reply) :
    (fetchCartResume H s reply).1.confirmingPurchase = s.confirmingPurchase ∧
    (fetchCartResume H s reply).1.busyWrites = s.busyWrites ∧
    (fetchCartResume H s reply).1.awaitingCheckout = s.awaitingCheckout ∧
    (fetchCartResume H s reply).1.awaitingRefresh = s.awaitingRefresh := by
  cases reply with
  | threw e =>
    cases hm : readProp H e "message" <;> simp [fetchCartResume, fetchCartTry, hm]
  | resolved data ok =>
    cases ok
    · cases hm : readProp H (notOkError H data "Error al obtener el carrito") "message" <;>
        simp [fetchCartResume, fetchCartTry, hm]
    · simp [fetchCartResume, fetchCartTry]

/-- The `catch` and `finally` blocks clear the busy flag, log that one write,
and leave the counters of suspended runs as they are. -/
theorem ConfirmacCompraEnd_frame (H : Host) (s : Screen) (thrown : Option JSVal) :
    (ConfirmacCompraEnd H s thrown).confirmingPurchase = false ∧
    (ConfirmacCompraEnd H s thrown).busyWrites = s.busyWrites ++ [false] ∧
    (ConfirmacCompraEnd H s thrown).awaitingCheckout = s.awaitingCheckout ∧
    (ConfirmacCompraEnd H s thrown).awaitingRefresh = s.awaitingRefresh := by
  cases thrown with
  | none => simp [ConfirmacCompraEnd]
  | some err =>
    cases hc : catchBlock H err <;> simp [ConfirmacCompraEnd, hc]

/-- A checkout whose response is ok but rejected by the normalizer with an
`Error` of message `msg` ends by showing the alert of the classified `msg`,
with the modal closed, the busy flag cleared and no cart request issued. -/
theorem ConfirmacCompra_rejected (H : Host) (s : Screen) (data : JSVal) (refresh : Reply)
    (msg : String) (hrej : normalizeResponse H data = .error (.error msg)) :
    (ConfirmacCompra H s (.resolved data true) refresh).alerts
      = s.alerts ++ [failureAlert (ErrorClassifier msg)] ∧
    (ConfirmacCompra H s (.resolved data true) refresh).requests
      = s.requests ++ ["POST /store/cart/checkout"] ∧
    (ConfirmacCompra H s (.resolved data true) refresh).showModal = false ∧
    (ConfirmacCompra H s (.resolved data true) refresh).confirmingPurchase = false := by
  simp [ConfirmacCompra, ConfirmacCompraTry, ConfirmacCompraBegin, ConfirmacCompraEnd, hrej,
    catchBlock_error]

/-- C8 (as stated, refuted): after an ok response `{}` the one alert shown is
the alert of the classifier run on the message of the normalizer, which is
`Unknown` with that message echoed. -/
theorem rejected_payload_shown_as_unknown :
    (ConfirmacCompra Host.sample Screen.initial (.resolved (.obj []) true)
        (.resolved .null true)).alerts
      = [failureAlert (ErrorClassifier unexpectedShapeMessage)] ∧
    ErrorClassifier unexpectedShapeMessage = .Unknown unexpectedShapeMessage ∧
    (failureAlert (ErrorClassifier unexpectedShapeMessage)).body
      = "No se pudo procesar tu compra. Intenta nuevamente.\n\nDetalle del error: "
        ++ "Estructura de respuesta del servidor inesperada" := by
  refine ⟨?_, by decide, by decide⟩
  have h := (ConfirmacCompra_rejected Host.sample Screen.initial (.obj []) (.resolved .null true)
    unexpectedShapeMessage rfl).1
  rw [h]; rfl

/-- C8 (amended): for every submit whose checkout call resolves ok with a
payload the normalizer rejects (`UnexpectedShape` or `IncompleteOrder`), the
orchestrator ends with the busy flag cleared and shows one more alert, the
one of the classifier run on the message of the normalizer: the category is
`Unknown` and the alert echoes that message. -/
theorem rejected_payload_classified (H : Host) (s : Screen) (data : JSVal) (refresh : Reply)
    (hrej : normalizeResponse H data = .error UnexpectedShape ∨
      normalizeResponse H data = .error IncompleteOrder) :
    ∃ msg : String,
      normalizeResponse H data = .error (.error msg) ∧
      ErrorClassifier msg = .Unknown msg ∧
      (ConfirmacCompra H s (.resolved data true) refresh).alerts
        = s.alerts ++ [failureAlert (.Unknown msg)] ∧
      (failureAlert (.Unknown msg)).body
        = "No se pudo procesar tu compra. " ++
          ("Intenta nuevamente.\n\nDetalle del error: " ++ msg) ∧
      (ConfirmacCompra H s (.resolved data true) refresh).confirmingPurchase = false := by
  rcases hrej with h | h
  · have hc : ErrorClassifier unexpectedShapeMessage = .Unknown unexpectedShapeMessage := by
      decide
    have hr := ConfirmacCompra_rejected H s data refresh unexpectedShapeMessage h
    rw [hc] at hr
    exact ⟨unexpectedShapeMessage, h, hc, hr.1, rfl, hr.2.2.2⟩
  · have hc : ErrorClassifier incompleteOrderMessage = .Unknown incompleteOrderMessage := by
      decide
    have hr := ConfirmacCompra_rejected H s data refresh incompleteOrderMessage h
    rw [hc] at hr
    exact ⟨incompleteOrderMessage, h, hc, hr.1, rfl, hr.2.2.2⟩

/-- Witness of `rejected_payload_classified`: the ok response `{order: {}}`. -/
theorem rejected_payload_classified_witness :
    ∃ msg : String,
      normalizeResponse Host.sample (.obj [("order", .obj [])]) = .error (.error msg) ∧
      ErrorClassifier msg = .Unknown msg ∧
      (ConfirmacCompra Host.sample Screen.initial
          (.resolved (.obj [("order", .obj [])]) true) (.resolved .null true)).alerts
        = Screen.initial.alerts ++ [failureAlert (.Unknown msg)] ∧
      (failureAlert (.Unknown msg)).body
        = "No se pudo procesar tu compra. " ++
          ("Intenta nuevamente.\n\nDetalle del error: " ++ msg) ∧
      (ConfirmacCompra Host.sample Screen.initial
          (.resolved (.obj [("order", .obj [])]) true)
          (.resolved .null true)).confirmingPurchase = false :=
  rejected_payload_classified Host.sample Screen.initial (.obj [("order", .obj [])])
    (.resolved .null true) (Or.inr rfl)

/-- A settled checkout call either ends the run, clearing the busy flag, or
moves the run to `await fetchCart()`, keeping the flag. -/
theorem checkoutSettles_fields (H : Host) (s : Screen) (reply : Reply)
    (h : s.awaitingCheckout ≠ 0) :
    ((checkoutSettles H s reply).confirmingPurchase = false ∧
      (checkoutSettles H s reply).awaitingCheckout = s.awaitingCheckout - 1 ∧
      (checkoutSettles H s reply).awaitingRefresh = s.awaitingRefresh) ∨
    ((checkoutSettles H s reply).confirmingPurchase = s.confirmingPurchase ∧
      (checkoutSettles H s reply).awaitingCheckout = s.awaitingCheckout - 1 ∧
      (checkoutSettles H s reply).awaitingRefresh = s.awaitingRefresh + 1) := by
  have hfr := ConfirmacCompraTry_frame H
    { s with awaitingCheckout := s.awaitingCheckout - 1 } reply
  rcases hT : ConfirmacCompraTry H { s with awaitingCheckout := s.awaitingCheckout - 1 } reply
    with ⟨t, st⟩
  rw [hT] at hfr
  simp only at hfr
  cases st with
  | threw err =>
    left
    have hend := ConfirmacCompraEnd_frame H t (some err)
    simp only [checkoutSettles, h, if_false, hT]
    exact ⟨hend.1, hend.2.2.1.trans hfr.2.2.1, hend.2.2.2.trans hfr.2.2.2⟩
  | reachedRefresh =>
    right
    simp only [checkoutSettles, h, if_false, hT, fetchCartBegin]
    exact ⟨hfr.1, hfr.2.2.1, by rw [hfr.2.2.2]⟩

/-- A settled cart call of a run suspended at `await fetchCart()` ends the run
and clears the busy flag. -/
theorem refreshSettles_fields (H : Host) (s : Screen) (reply : Reply)
    (h : s.awaitingRefresh ≠ 0) :
    (refreshSettles H s reply).confirmingPurchase = false ∧
    (refreshSettles H s reply).awaitingCheckout = s.awaitingCheckout ∧
    (refreshSettles H s reply).awaitingRefresh = s.awaitingRefresh - 1 := by
  have hfr := fetchCartResume_frame H { s with awaitingRefresh := s.awaitingRefresh - 1 } reply
  rcases hT : fetchCartResume H { s with awaitingRefresh := s.awaitingRefresh - 1 } reply
    with ⟨t, thrown⟩
  rw [hT] at hfr
  simp only at hfr
  have hend := ConfirmacCompraEnd_frame H t thrown
  simp only [refreshSettles, h, if_false, hT]
  exact ⟨hend.1, hend.2.2.1.trans hfr.2.2.1, hend.2.2.2.trans hfr.2.2.2⟩

/-- A settled cart call of a `fetchCart` started outside a checkout leaves the
busy flag and the counters of suspended checkouts as they are. -/
theorem cartSettles_fields (H : Host) (s : Screen) (reply : Reply) :
    (cartSettles H s reply).confirmingPurchase = s.confirmingPurchase ∧
    (cartSettles H s reply).awaitingCheckout = s.awaitingCheckout ∧
    (cartSettles H s reply).awaitingRefresh = s.awaitingRefresh := by
  by_cases h : s.awaitingCart = 0
  · simp [cartSettles, h]
  · have hfr := fetchCartResume_frame H { s with awaitingCart := s.awaitingCart - 1 } reply
    rcases hT : fetchCartResume H { s with awaitingCart := s.awaitingCart - 1 } reply
      with ⟨t, thrown⟩
    rw [hT] at hfr
    simp only at hfr
    cases thrown with
    | none =>
      simp only [cartSettles, h, if_false, hT]
      exact ⟨hfr.1, hfr.2.2.1, hfr.2.2.2⟩
    | some err =>
      simp only [cartSettles, h, if_false, hT]
      exact ⟨hfr.1, hfr.2.2.1, hfr.2.2.2⟩

/-- Each event keeps at most one run of `ConfirmacCompra` suspended, and the
busy flag is set exactly while one is. -/
theorem step_keeps_single_run (H : Host) (s : Screen) (e : Event)
    (hle : s.awaitingCheckout + s.awaitingRefresh ≤ 1)
    (hflag : s.confirmingPurchase = true ↔ s.awaitingCheckout + s.awaitingRefresh = 1) :
    (step H s e).awaitingCheckout + (step H s e).awaitingRefresh ≤ 1 ∧
    ((step H s e).confirmingPurchase = true ↔
      (step H s e).awaitingCheckout + (step H s e).awaitingRefresh = 1) := by
  cases e with
  | pressConfirm =>
    by_cases hb : s.confirmingPurchase = true
    · have hsame : pressConfirm s = s := by simp [pressConfirm, hb]
      simp only [step]
      rw [hsame]
      exact ⟨hle, hflag⟩
    · have hne : ¬ (s.awaitingCheckout + s.awaitingRefresh = 1) := fun h => hb (hflag.mpr h)
      have hc : s.awaitingCheckout = 0 := by omega
      have hr : s.awaitingRefresh = 0 := by omega
      simp [step, pressConfirm, hb, ConfirmacCompraBegin, hc, hr]
  | pressCancel =>
    by_cases hb : s.confirmingPurchase = true
    · have hsame : pressCancel s = s := by simp [pressCancel, hb]
      simp only [step]
      rw [hsame]
      exact ⟨hle, hflag⟩
    · have hclose : pressCancel s = { s with showModal := false } := by
        simp [pressCancel, hb]
      simp only [step]
      rw [hclose]
      exact ⟨hle, hflag⟩
  | openConfirmModal b =>
    cases b
    · simp only [step, openConfirmModal, Bool.false_eq_true, if_false]
      exact ⟨hle, hflag⟩
    · simp only [step, openConfirmModal, if_true]
      exact ⟨hle, hflag⟩
  | fetchCartStart =>
    simp only [step, fetchCartStart, fetchCartBegin]
    exact ⟨hle, hflag⟩
  | checkoutSettles reply =>
    by_cases h0 : s.awaitingCheckout = 0
    · simp only [step, checkoutSettles, h0, if_true]
      rw [h0] at hle hflag
      exact ⟨hle, hflag⟩
    · have hb : s.confirmingPurchase = true := hflag.mpr (by omega)
      simp only [step]
      rcases checkoutSettles_fields H s reply h0 with ⟨h1, h2, h3⟩ | ⟨h1, h2, h3⟩
      · rw [h1, h2, h3]
        refine ⟨by omega, ?_⟩
        constructor
        · intro hf; cases hf
        · intro hone; omega
      · rw [h1, h2, h3, hb]
        refine ⟨by omega, ?_⟩
        constructor
        · intro _; omega
        · intro _; rfl
  | refreshSettles reply =>
    by_cases h0 : s.awaitingRefresh = 0
    · simp only [step, refreshSettles, h0, if_true]
      rw [h0] at hle hflag
      exact ⟨hle, hflag⟩
    · simp only [step]
      obtain ⟨h1, h2, h3⟩ := refreshSettles_fields H s reply h0
      rw [h1, h2, h3]
      refine ⟨by omega, ?_⟩
      constructor
      · intro hf; cases hf
      · intro hone; omega
  | cartSettles reply =>
    simp only [step]
    obtain ⟨h1, h2, h3⟩ := cartSettles_fields H s reply
    rw [h1, h2, h3]
    exact ⟨hle, hflag⟩

/-- Every state reached from the mounted screen has at most one run of
`ConfirmacCompra` suspended, and its busy flag is set exactly while one is. -/
theorem run_keeps_single_run (H : Host) (events : List Event) (s : Screen)
    (hle : s.awaitingCheckout + s.awaitingRefresh ≤ 1)
    (hflag : s.confirmingPurchase = true ↔ s.awaitingCheckout + s.awaitingRefresh = 1) :
    (run H s events).awaitingCheckout + (run H s events).awaitingRefresh ≤ 1 ∧
    ((run H s events).confirmingPurchase = true ↔
      (run H s events).awaitingCheckout + (run H s events).awaitingRefresh = 1) := by
  induction events generalizing s with
  | nil => exact ⟨hle, hflag⟩
  | cons e rest ih =>
    have hstep := step_keeps_single_run H s e hle hflag
    exact ih (step H s e) hstep.1 hstep.2

/-- C9: a press on the confirm button while the busy flag is set changes
nothing: the state is the same, with the flag still set and no further
request logged; and in every state reached from the mounted screen at most
one checkout request is in flight, the flag being set whenever one is. -/
theorem busy_submit_is_noop (H : Host) :
    (∀ s : Screen, s.confirmingPurchase = true →
      step H s .pressConfirm = s ∧
      (step H s .pressConfirm).confirmingPurchase = true ∧
      (step H s .pressConfirm).requests = s.requests ∧
      (step H s .pressConfirm).awaitingCheckout = s.awaitingCheckout) ∧
    (∀ events : List Event, (run H Screen.initial events).awaitingCheckout ≤ 1) ∧
    (∀ events : List Event, (run H Screen.initial events).awaitingCheckout = 1 →
      (run H Screen.initial events).confirmingPurchase = true) := by
  have hinit := fun events => run_keeps_single_run H events Screen.initial
    (by decide) (by decide)
  refine ⟨?_, ?_, ?_⟩
  · intro s hb
    have hsame : step H s .pressConfirm = s := by simp [step, pressConfirm, hb]
    rw [hsame]
    exact ⟨rfl, hb, rfl, rfl⟩
  · intro events
    have h := (hinit events).1
    omega
  · intro events hone
    have h := hinit events
    exact h.2.mpr (by omega)

/-- Witness of `busy_submit_is_noop`: two presses in a row from the mounted
screen log one checkout request. -/
theorem busy_submit_is_noop_witness :
    (run Host.sample Screen.initial [.pressConfirm, .pressConfirm]).requests
      = ["POST /store/cart/checkout"] ∧
    (run Host.sample Screen.initial [.pressConfirm, .pressConfirm]).confirmingPurchase = true ∧
    (run Host.sample Screen.initial [.pressConfirm, .pressConfirm]).awaitingCheckout = 1 := by
  have h := ((busy_submit_is_noop Host.sample).1
    (run Host.sample Screen.initial [.pressConfirm]) rfl).1
  have hrun : run Host.sample Screen.initial [.pressConfirm, .pressConfirm]
      = step Host.sample (run Host.sample Screen.initial [.pressConfirm]) .pressConfirm := rfl
  rw [hrun, h]
  exact ⟨rfl, rfl, rfl⟩

/-- A press on the enabled confirm button followed by the settling of the two
calls is one whole call of `ConfirmacCompra`. -/
theorem ConfirmacCompra_as_events (H : Host) (s : Screen) (checkout refresh : Reply)
    (hb : s.confirmingPurchase = false) (hc : s.awaitingCheckout = 0)
    (hr : s.awaitingRefresh = 0) :
    run H s [.pressConfirm, .checkoutSettles checkout, .refreshSettles refresh]
      = ConfirmacCompra H s checkout refresh := by
  have hs : ({ ConfirmacCompraBegin s with awaitingCheckout := 0 } : Screen)
      = ConfirmacCompraBegin s := by
    simp [ConfirmacCompraBegin, hc]
  have hfr := ConfirmacCompraTry_frame H (ConfirmacCompraBegin s) checkout
  rcases hT : ConfirmacCompraTry H (ConfirmacCompraBegin s) checkout with ⟨t, st⟩
  rw [hT] at hfr
  simp only at hfr
  have htr : t.awaitingRefresh = 0 := by rw [hfr.2.2.2]; simpa [ConfirmacCompraBegin] using hr
  cases st with
  | threw err =>
    have hend := ConfirmacCompraEnd_frame H t (some err)
    simp [run, step, pressConfirm, hb, checkoutSettles, refreshSettles, ConfirmacCompra, hc, hs,
      hT, hend.2.2.2, htr]
  | reachedRefresh =>
    simp [run, step, pressConfirm, hb, checkoutSettles, refreshSettles, ConfirmacCompra, hc, hs,
      hT, htr, fetchCart, fetchCartBegin]

/-- C10: for every state at entry and every way the checkout call and the cart
call settle, `ConfirmacCompra` sets the busy flag once on entry, clears it
once on exit, and ends with the flag cleared. -/
theorem busy_flag_cleared (H : Host) (s : Screen) (checkout refresh : Reply) :
    (ConfirmacCompraBegin s).confirmingPurchase = true ∧
    (ConfirmacCompra H s checkout refresh).confirmingPurchase = false ∧
    (ConfirmacCompra H s checkout refresh).busyWrites = s.busyWrites ++ [true, false] := by
  have hfr := ConfirmacCompraTry_frame H (ConfirmacCompraBegin s) checkout
  rcases hT : ConfirmacCompraTry H (ConfirmacCompraBegin s) checkout with ⟨t, st⟩
  rw [hT] at hfr
  simp only at hfr
  have hw : t.busyWrites = s.busyWrites ++ [true] := by
    rw [hfr.2.1]; rfl
  refine ⟨rfl, ?_, ?_⟩
  · cases st with
    | threw err =>
      simp only [ConfirmacCompra, hT]
      exact (ConfirmacCompraEnd_frame H t (some err)).1
    | reachedRefresh =>
      simp only [ConfirmacCompra, hT]
      exact (ConfirmacCompraEnd_frame H _ _).1
  · cases st with
    | threw err =>
      simp only [ConfirmacCompra, hT]
      rw [(ConfirmacCompraEnd_frame H t (some err)).2.1, hw]
      simp
    | reachedRefresh =>
      simp only [ConfirmacCompra, hT, fetchCart]
      rw [(ConfirmacCompraEnd_frame H _ _).2.1,
        (fetchCartResume_frame H (fetchCartBegin t) refresh).2.1]
      simp [fetchCartBegin, hw]

/-! ### CartStore -/

/-- C11 (as stated, refuted): when the cart call throws `null`, `fetchCart`
leaves the held error cleared and itself throws the `TypeError` of reading
`err.message`; when the call throws the string `"boom"`, the held error is
`undefined`.  In neither case is a message of the failure held. -/
theorem thrown_value_not_recorded :
    (fetchCart Host.sample Screen.initial (.threw .null)).1.error = .null ∧
    (fetchCart Host.sample Screen.initial (.threw .null)).2
      = some (.error (Host.sample.cannotRead .null "message")) ∧
    (fetchCart Host.sample Screen.initial (.threw (.str "boom"))).1.error = .undefined := by
  exact ⟨rfl, rfl, rfl⟩

/-- C11 (amended): for every held state, `fetchCart` on a successful read holds
the response data as the cart and leaves the error cleared; on a response
that is not ok, and on a thrown `Error`, it leaves the cart as it was and
holds the message of the failure as the error; whatever the call throws, the
cart is left as it was; and in every case `loading` is false afterwards. -/
theorem fetchCart_effect (H : Host) (s : Screen) :
    (∀ data : JSVal,
      (fetchCart H s (.resolved data true)).1.cart = data ∧
      (fetchCart H s (.resolved data true)).1.error = .null ∧
      (fetchCart H s (.resolved data true)).1.loading = false ∧
      (fetchCart H s (.resolved data true)).2 = none) ∧
    (∀ data : JSVal,
      (fetchCart H s (.resolved data false)).1.cart = s.cart ∧
      (fetchCart H s (.resolved data false)).1.error
        = .str (H.text ((readOptional data "detail").orElse
            (.str "Error al obtener el carrito"))) ∧
      (fetchCart H s (.resolved data false)).1.loading = false ∧
      (fetchCart H s (.resolved data false)).2 = none) ∧
    (∀ data : JSVal, readOptional data "detail" = .undefined →
      (fetchCart H s (.resolved data false)).1.error = .str "Error al obtener el carrito") ∧
    (∀ message : String,
      (fetchCart H s (.threw (.error message))).1.cart = s.cart ∧
      (fetchCart H s (.threw (.error message))).1.error = .str message ∧
      (fetchCart H s (.threw (.error message))).1.loading = false ∧
      (fetchCart H s (.threw (.error message))).2 = none) ∧
    (∀ e : JSVal,
      (fetchCart H s (.threw e)).1.cart = s.cart ∧
      (fetchCart H s (.threw e)).1.loading = false) := by
  refine ⟨fun data => ?_, fun data => ?_, fun data hd => ?_, fun message => ?_, fun e => ?_⟩
  · simp [fetchCart, fetchCartResume, fetchCartTry, fetchCartBegin]
  · simp [fetchCart, fetchCartResume, fetchCartTry, fetchCartBegin, notOkError, readProp,
      JSVal.nullish, JSVal.prop]
  · simp [fetchCart, fetchCartResume, fetchCartTry, fetchCartBegin, notOkError, readProp,
      JSVal.nullish, JSVal.prop, hd, JSVal.orElse, JSVal.truthy, Host.text]
  · simp [fetchCart, fetchCartResume, fetchCartTry, fetchCartBegin, readProp,
      JSVal.nullish, JSVal.prop]
  · cases hm : readProp H e "message" <;>
      simp [fetchCart, fetchCartResume, fetchCartTry, fetchCartBegin, hm]

/-! ### TotalCalculator -/

/-- The reducer on an item with a numeric `product.price` and `quantity`
gives the double product of the two doubles. -/
theorem lineTotal_numeric (H : Host) (C : Coercion) (item : JSVal) (p q : Rat)
    (hp : (item.prop "product").prop "price" = .num p)
    (hq : item.prop "quantity" = .num q) :
    lineTotal H C item = .ok ((roundDouble p).mul (roundDouble q)) := by
  have hitem : item.nullish = false := by
    cases item <;> simp_all [JSVal.prop, JSVal.nullish]
  have hprod : (item.prop "product").nullish = false := by
    cases hproduct : item.prop "product" <;> simp_all [JSVal.prop, JSVal.nullish]
  simp [lineTotal, readProp, hitem, hprod, hp, hq, toNumber, bind, Except.bind, pure,
    Except.pure]

/-- The fold of `getTotal` over items with numeric prices and quantities is
the left-to-right fold of double additions of the double products. -/
theorem foldlM_lineTotals (H : Host) (C : Coercion) (items : List JSVal)
    (lines : List (Rat × Rat)) (acc : JSNum)
    (hlines : List.Forall₂ (fun item line =>
      (item.prop "product").prop "price" = .num line.1 ∧
      item.prop "quantity" = .num line.2) items lines) :
    items.foldlM (fun sum item => do
        let line ← lineTotal H C item
        pure (sum.add line)) acc
      = (.ok (lines.foldl
          (fun sum line => sum.add ((roundDouble line.1).mul (roundDouble line.2))) acc)
        : Except JSVal JSNum) := by
  induction hlines generalizing acc with
  | nil => rfl
  | cons h _ ih =>
    simp only [List.foldlM_cons, List.foldl_cons, lineTotal_numeric H C _ _ _ h.1 h.2, bind,
      Except.bind, pure, Except.pure]
    exact ih _

/-- A number below `2 ^ k` has at most `k` binary digits. -/
theorem bitLength_le (fuel t k : Nat) (h : t < 2 ^ k) : bitLength fuel t ≤ k := by
  induction fuel generalizing t k with
  | zero => simp [bitLength]
  | succ fuel ih =>
    unfold bitLength
    by_cases ht : t = 0
    · simp [ht]
    · simp only [ht, if_false]
      cases k with
      | zero => simp at h; omega
      | succ k =>
        have : t / 2 < 2 ^ k := by
          rw [pow_succ] at h
          omega
        have := ih (t / 2) k this
        omega

/-- Rounding leaves an integer unchanged when the digits it would drop are
all zero. -/
theorem roundRatio_exact (t : Nat) (h : 2 ^ (bitLength t t - 53) ∣ t) : roundRatio t 1 = t := by
  unfold roundRatio
  simp only [Nat.div_one, Nat.one_mul]
  have hpos : 0 < 2 ^ (bitLength t t - 53) := Nat.two_pow_pos _
  have hrem : t % 2 ^ (bitLength t t - 53) = 0 := Nat.mod_eq_zero_of_dvd h
  simp only [hrem, Nat.mul_zero, hpos, if_true]
  exact Nat.div_mul_cancel h

set_option exponentiation.threshold 4000 in
/-- An integer of at most `2 ^ 53`, in the unit `2 ^ (-1074)`, is not rounded. -/
theorem roundRatio_scaled (n : Nat) (h : n ≤ 2 ^ 53) :
    roundRatio (n * 2 ^ 1074) 1 = n * 2 ^ 1074 := by
  apply roundRatio_exact
  rcases Nat.lt_or_eq_of_le h with hlt | heq
  · have hbound : n * 2 ^ 1074 < 2 ^ 1127 := by
      have : (2 : Nat) ^ 1127 = 2 ^ 53 * 2 ^ 1074 := pow_add 2 53 1074
      rw [this]
      exact Nat.mul_lt_mul_of_pos_right hlt (Nat.two_pow_pos _)
    have hlen := bitLength_le (n * 2 ^ 1074) (n * 2 ^ 1074) 1127 hbound
    have hd : bitLength (n * 2 ^ 1074) (n * 2 ^ 1074) - 53 ≤ 1074 :=
      Nat.sub_le_of_le_add hlen
    exact Dvd.dvd.mul_left (Nat.pow_dvd_pow 2 hd) n
  · have ht : n * 2 ^ 1074 = 2 ^ 1127 := by rw [heq]; exact (pow_add 2 53 1074).symm
    have hbound : n * 2 ^ 1074 < 2 ^ 1128 := by
      rw [ht]; exact Nat.pow_lt_pow_right (by decide) (by decide)
    have hlen := bitLength_le (n * 2 ^ 1074) (n * 2 ^ 1074) 1128 hbound
    have hd : bitLength (n * 2 ^ 1074) (n * 2 ^ 1074) - 53 ≤ 1127 :=
      Nat.sub_le_of_le_add (Nat.le_trans hlen (by decide))
    rw [ht] at hd ⊢
    exact Nat.pow_dvd_pow 2 hd

/-- A scaled numerator over its scale is the integer. -/
theorem mkRat_scaled (n P : Nat) (hP : P ≠ 0) : mkRat ((n * P : Nat) : Int) P = (n : Rat) := by
  rw [Rat.mkRat_eq_div]
  push_cast
  have : (P : Rat) ≠ 0 := by exact_mod_cast hP
  field_simp

set_option exponentiation.threshold 4000 in
/-- Every natural number up to `2 ^ 53` is a double. -/
theorem roundDouble_natCast (n : Nat) (h : n ≤ 2 ^ 53) :
    roundDouble (n : Rat) = .finite n := by
  unfold roundDouble
  simp only [Rat.num_natCast, Rat.den_natCast, Int.natAbs_ofNat, roundRatio_scaled n h]
  have hsmall : ¬ (2 ^ 2098 ≤ n * 2 ^ 1074) := by
    have h1 : n * 2 ^ 1074 ≤ 2 ^ 53 * 2 ^ 1074 := Nat.mul_le_mul_right _ h
    have h2 : (2 : Nat) ^ 53 * 2 ^ 1074 = 2 ^ 1127 := (pow_add 2 53 1074).symm
    have h3 : (2 : Nat) ^ 1127 < 2 ^ 2098 := Nat.pow_lt_pow_right (by decide) (by decide)
    rw [h2] at h1
    exact Nat.not_le.mpr (Nat.lt_of_le_of_lt h1 h3)
  have hneg : ¬ ((n : Int) < 0) := Int.not_lt.mpr (Int.ofNat_nonneg n)
  simp only [hsmall, hneg, if_false]
  by_cases hn : n = 0
  · subst hn; simp
  · have hne : n * 2 ^ 1074 ≠ 0 := Nat.mul_ne_zero hn (Nat.two_pow_pos _).ne'
    simp only [hne, if_false]
    exact congrArg JSNum.finite (mkRat_scaled n (2 ^ 1074) (Nat.two_pow_pos _).ne')

/-- The double product of two natural numbers whose product is at most
`2 ^ 53` is the exact product. -/
theorem mul_natCast (a b : Nat) (h : a * b ≤ 2 ^ 53) :
    (JSNum.finite (a : Rat)).mul (.finite (b : Rat)) = .finite ((a * b : Nat) : Rat) := by
  have hnonneg : ∀ n : Nat, ¬ ((n : Rat) < 0) := fun n => not_lt.mpr (Nat.cast_nonneg n)
  by_cases h0 : (a : Rat) * (b : Rat) = 0
  · have h0nat : a * b = 0 := by exact_mod_cast h0
    simp [JSNum.mul, JSNum.isNaN, JSNum.value?, JSNum.isNeg, h0, h0nat, hnonneg]
  · have hr := roundDouble_natCast (a * b) h
    push_cast at hr
    simp [JSNum.mul, JSNum.isNaN, JSNum.value?, h0, hr]

/-- The double sum of two natural numbers whose sum is at most `2 ^ 53` is
the exact sum. -/
theorem add_natCast (a b : Nat) (h : a + b ≤ 2 ^ 53) :
    (JSNum.finite (a : Rat)).add (.finite (b : Rat)) = .finite ((a + b : Nat) : Rat) := by
  have hnonneg : ∀ n : Nat, ¬ ((n : Rat) < 0) := fun n => not_lt.mpr (Nat.cast_nonneg n)
  by_cases h0 : (a : Rat) + (b : Rat) = 0
  · have h0nat : a + b = 0 := by exact_mod_cast h0
    simp [JSNum.add, JSNum.isNaN, JSNum.value?, JSNum.isNeg, h0, h0nat, hnonneg]
  · have hr := roundDouble_natCast (a + b) h
    push_cast at hr
    simp [JSNum.add, JSNum.isNaN, JSNum.value?, h0, hr]

/-- The double fold over natural prices and quantities, each at most `2 ^ 53`,
is the exact total as long as that total stays at most `2 ^ 53`. -/
theorem foldl_natural_lines (lines : List (Nat × Nat)) (acc : Nat)
    (hsize : ∀ line ∈ lines, line.1 ≤ 2 ^ 53 ∧ line.2 ≤ 2 ^ 53)
    (htotal : acc + (lines.map (fun line => line.1 * line.2)).sum ≤ 2 ^ 53) :
    lines.foldl
        (fun sum line => sum.add ((roundDouble (line.1 : Rat)).mul (roundDouble (line.2 : Rat))))
        (JSNum.finite (acc : Rat))
      = .finite ((acc + (lines.map (fun line => line.1 * line.2)).sum : Nat) : Rat) := by
  induction lines generalizing acc with
  | nil => simp
  | cons line rest ih =>
    have hline := hsize line (List.mem_cons_self _ _)
    simp only [List.map_cons, List.sum_cons] at htotal
    have hprod : line.1 * line.2 ≤ 2 ^ 53 := by omega
    have hsum : acc + line.1 * line.2 ≤ 2 ^ 53 := by omega
    simp only [List.foldl_cons, List.map_cons, List.sum_cons,
      roundDouble_natCast _ hline.1, roundDouble_natCast _ hline.2,
      mul_natCast _ _ hprod, add_natCast _ _ hsum]
    rw [ih (acc + line.1 * line.2) (fun l hl => hsize l (List.mem_cons_of_mem _ hl))
      (by omega)]
    congr 2
    omega

/-- The total of a cart whose `cart_products` is an array. -/
theorem getTotal_of_array (H : Host) (C : Coercion) (cart : JSVal) (items : List JSVal)
    (hcart : cart.prop "cart_products" = .arr items) :
    getTotal H C cart
      = items.foldlM (fun sum item => do
          let line ← lineTotal H C item
          pure (sum.add line)) (.finite 0) := by
  have htruthy : cart.truthy = true := by
    cases cart <;> simp_all [JSVal.prop, JSVal.truthy]
  have hn := nullish_of_truthy cart htruthy
  have harr : (JSVal.arr items).truthy = true := rfl
  simp [getTotal, htruthy, readProp, hn, hcart, harr, bind, Except.bind]

set_option exponentiation.threshold 4000 in
set_option maxRecDepth 8000 in
/-- The sum `2 ^ 53 + 1` is rounded to `2 ^ 53`. -/
theorem roundDouble_above_53 :
    roundDouble 9007199254740993 = .finite 9007199254740992 := by
  decide

set_option exponentiation.threshold 4000 in
set_option maxRecDepth 8000 in
/-- The double nearest to one tenth. -/
theorem roundDouble_tenth :
    roundDouble (mkRat 1 10) = .finite (mkRat 3602879701896397 36028797018963968) := by
  decide

set_option exponentiation.threshold 4000 in
set_option maxRecDepth 8000 in
/-- Three times the double nearest to one tenth is rounded up. -/
theorem roundDouble_three_tenths :
    roundDouble (mkRat 10808639105689191 36028797018963968)
      = .finite (mkRat 1351079888211149 4503599627370496) := by
  decide

set_option exponentiation.threshold 4000 in
set_option maxRecDepth 8000 in
/-- The rounded product is a double. -/
theorem roundDouble_rounded_three_tenths :
    roundDouble (mkRat 1351079888211149 4503599627370496)
      = .finite (mkRat 1351079888211149 4503599627370496) := by
  decide

/-- For one item of price 0.1 and quantity 3 the total is
`0.30000000000000004`, the double `1351079888211149 / 2 ^ 52`, not `3 / 10`. -/
theorem getTotal_tenth_times_three :
    getTotal Host.sample Coercion.sample
        (.obj [("cart_products", .arr [
          .obj [("product", .obj [("price", .num (1 / 10))]), ("quantity", .num 3)]])])
      = .ok (.finite (1351079888211149 / 4503599627370496)) ∧
    (1351079888211149 / 4503599627370496 : Rat) ≠ 1 / 10 * 3 := by
  refine ⟨?_, by norm_num⟩
  rw [getTotal_of_array Host.sample Coercion.sample _
      [.obj [("product", .obj [("price", .num (1 / 10))]), ("quantity", .num 3)]] (by rfl),
    foldlM_lineTotals Host.sample Coercion.sample _ [(1 / 10, 3)] _
      (List.Forall₂.cons (by exact ⟨rfl, rfl⟩) List.Forall₂.nil)]
  have htenth : (1 / 10 : Rat) = mkRat 1 10 := by
    rw [Rat.mkRat_eq_div]; norm_num
  have hthree : roundDouble (3 : Rat) = .finite 3 := by
    have h := roundDouble_natCast 3 (by norm_num)
    exact_mod_cast h
  have hprod : (mkRat 3602879701896397 36028797018963968 : Rat) * 3
      = mkRat 10808639105689191 36028797018963968 := by
    simp only [Rat.mkRat_eq_div]; norm_num
  have hne : ¬ ((mkRat 10808639105689191 36028797018963968 : Rat) = 0) := by
    simp only [Rat.mkRat_eq_div]; norm_num
  have hsum : (0 : Rat) + mkRat 1351079888211149 4503599627370496
      = mkRat 1351079888211149 4503599627370496 := zero_add _
  have hne2 : ¬ ((mkRat 1351079888211149 4503599627370496 : Rat) = 0) := by
    simp only [Rat.mkRat_eq_div]; norm_num
  have hval : (mkRat 1351079888211149 4503599627370496 : Rat)
      = 1351079888211149 / 4503599627370496 := by
    rw [Rat.mkRat_eq_div]; norm_num
  have hmul : (JSNum.finite (mkRat 3602879701896397 36028797018963968)).mul (.finite 3)
      = .finite (mkRat 1351079888211149 4503599627370496) := by
    unfold JSNum.mul
    simp only [JSNum.isNaN, JSNum.value?, Bool.or_self, Bool.false_eq_true, if_false]
    rw [hprod, if_neg hne, roundDouble_three_tenths]
  have hadd : (JSNum.finite 0).add (.finite (mkRat 1351079888211149 4503599627370496))
      = .finite (mkRat 1351079888211149 4503599627370496) := by
    unfold JSNum.add
    simp only [JSNum.isNaN, JSNum.value?, Bool.or_self, Bool.false_eq_true, if_false]
    rw [hsum, if_neg hne2, roundDouble_rounded_three_tenths]
  simp only [List.foldl_cons, List.foldl_nil]
  rw [htenth, roundDouble_tenth, hthree, hmul, hadd, hval]

/-- C1 (as stated, refuted): for the cart of the two items of price `2 ^ 53`
and `1`, each of quantity 1, `getTotal` returns `2 ^ 53` although the exact
sum is `2 ^ 53 + 1`; for one item of price 0.1 and quantity 3 it returns
`0.30000000000000004`, not `3 / 10`; and for a cart with an item that has no
`product` it returns nothing: the read of `price` throws. -/
theorem getTotal_rounds :
    getTotal Host.sample Coercion.sample
        (.obj [("cart_products", .arr [
          .obj [("product", .obj [("price", .num 9007199254740992)]), ("quantity", .num 1)],
          .obj [("product", .obj [("price", .num 1)]), ("quantity", .num 1)]])])
      = .ok (.finite 9007199254740992) ∧
    (9007199254740992 : Rat) * 1 + 1 * 1 = 9007199254740993 ∧
    JSNum.finite 9007199254740992 ≠ JSNum.finite 9007199254740993 ∧
    getTotal Host.sample Coercion.sample
        (.obj [("cart_products", .arr [
          .obj [("product", .obj [("price", .num (1 / 10))]), ("quantity", .num 3)]])])
      = .ok (.finite (1351079888211149 / 4503599627370496)) ∧
    (1351079888211149 / 4503599627370496 : Rat) ≠ 1 / 10 * 3 ∧
    getTotal Host.sample Coercion.sample
        (.obj [("cart_products", .arr [.obj [("quantity", .num 1)]])])
      = .error (.error (Host.sample.cannotRead .undefined "price")) := by
  refine ⟨?_, by norm_num, by decide, getTotal_tenth_times_three.1,
    getTotal_tenth_times_three.2, rfl⟩
  rw [getTotal_of_array Host.sample Coercion.sample _
      [.obj [("product", .obj [("price", .num 9007199254740992)]), ("quantity", .num 1)],
        .obj [("product", .obj [("price", .num 1)]), ("quantity", .num 1)]] (by rfl),
    foldlM_lineTotals Host.sample Coercion.sample _ [(9007199254740992, 1), (1, 1)] _
      (List.Forall₂.cons (by exact ⟨rfl, rfl⟩)
        (List.Forall₂.cons (by exact ⟨rfl, rfl⟩) List.Forall₂.nil))]
  have hbig : roundDouble (9007199254740992 : Rat) = .finite 9007199254740992 := by
    have h := roundDouble_natCast 9007199254740992 (by norm_num)
    exact_mod_cast h
  have hone : roundDouble (1 : Rat) = .finite 1 := by
    have h := roundDouble_natCast 1 (by norm_num)
    exact_mod_cast h
  have hmul1 : (JSNum.finite 9007199254740992).mul (.finite 1) = .finite 9007199254740992 := by
    have h := mul_natCast 9007199254740992 1 (by norm_num)
    exact_mod_cast h
  have hmul2 : (JSNum.finite 1).mul (.finite 1) = .finite 1 := by
    have h := mul_natCast 1 1 (by norm_num)
    exact_mod_cast h
  have hadd1 : (JSNum.finite 0).add (.finite 9007199254740992) = .finite 9007199254740992 := by
    have h := add_natCast 0 9007199254740992 (by norm_num)
    exact_mod_cast h
  have hadd2 : (JSNum.finite 9007199254740992).add (.finite 1) = .finite 9007199254740992 := by
    have hne : ¬ ((9007199254740992 : Rat) + 1 = 0) := by norm_num
    have hval : (9007199254740992 : Rat) + 1 = 9007199254740993 := by norm_num
    have hnz : ¬ ((9007199254740993 : Rat) = 0) := by norm_num
    simp only [JSNum.add, JSNum.isNaN, JSNum.value?, Bool.or_self, Bool.false_eq_true, if_false,
      hval, hnz, roundDouble_above_53]
  simp only [List.foldl_cons, List.foldl_nil, hbig, hone, hmul1, hmul2, hadd1, hadd2]

/-- C1 (amended): `getTotal` returns 0 when the cart is `null` or otherwise
falsy, when `cart_products` is absent or otherwise falsy, and when the item
list is empty.  For every cart whose items each carry a numeric
`product.price` and a numeric `quantity` it returns the sum, taken from left
to right in double arithmetic, of the double products `price * quantity`; that
is the exact sum whenever the prices and quantities are natural numbers of at
most `2 ^ 53` whose exact total is at most `2 ^ 53`. -/
theorem getTotal_double_sum (H : Host) (C : Coercion) :
    getTotal H C .null = .ok (.finite 0) ∧
    (∀ cart : JSVal, cart.truthy = false → getTotal H C cart = .ok (.finite 0)) ∧
    (∀ cart : JSVal, (cart.prop "cart_products").truthy = false →
      getTotal H C cart = .ok (.finite 0)) ∧
    (∀ cart : JSVal, cart.prop "cart_products" = .arr [] →
      getTotal H C cart = .ok (.finite 0)) ∧
    (∀ (cart : JSVal) (items : List JSVal) (lines : List (Rat × Rat)),
      cart.prop "cart_products" = .arr items →
      List.Forall₂ (fun item line =>
        (item.prop "product").prop "price" = .num line.1 ∧
        item.prop "quantity" = .num line.2) items lines →
      getTotal H C cart
        = .ok (lines.foldl
            (fun sum line => sum.add ((roundDouble line.1).mul (roundDouble line.2)))
            (.finite 0))) ∧
    (∀ (cart : JSVal) (items : List JSVal) (lines : List (Nat × Nat)),
      cart.prop "cart_products" = .arr items →
      List.Forall₂ (fun item line =>
        (item.prop "product").prop "price" = .num (line.1 : Rat) ∧
        item.prop "quantity" = .num (line.2 : Rat)) items lines →
      (∀ line ∈ lines, line.1 ≤ 2 ^ 53 ∧ line.2 ≤ 2 ^ 53) →
      (lines.map (fun line => line.1 * line.2)).sum ≤ 2 ^ 53 →
      getTotal H C cart
        = .ok (.finite (((lines.map (fun line => line.1 * line.2)).sum : Nat) : Rat))) := by
  have hfalsy : ∀ cart : JSVal, cart.truthy = false → getTotal H C cart = .ok (.finite 0) := by
    intro cart hc
    simp [getTotal, hc, pure, Except.pure]
  refine ⟨hfalsy .null rfl, hfalsy, ?_, ?_, ?_, ?_⟩
  · intro cart hp
    by_cases hc : cart.truthy = true
    · have hn := nullish_of_truthy cart hc
      simp [getTotal, hc, readProp, hn, hp, bind, Except.bind, pure, Except.pure]
    · simp only [Bool.not_eq_true] at hc
      exact hfalsy cart hc
  · intro cart hp
    rw [getTotal_of_array H C cart [] hp]
    rfl
  · intro cart items lines hp hlines
    rw [getTotal_of_array H C cart items hp, foldlM_lineTotals H C items lines _ hlines]
  · intro cart items lines hp hlines hsize htotal
    have hcast : List.Forall₂ (fun item (line : Rat × Rat) =>
        (item.prop "product").prop "price" = .num line.1 ∧
        item.prop "quantity" = .num line.2) items
        (lines.map (fun line => ((line.1 : Rat), (line.2 : Rat)))) := by
      rw [List.forall₂_map_right_iff]
      exact hlines
    rw [getTotal_of_array H C cart items hp, foldlM_lineTotals H C items _ _ hcast,
      List.foldl_map]
    have hfold := foldl_natural_lines lines 0 hsize (by simpa using htotal)
    simpa using hfold

/-- Witness of `getTotal_double_sum`: the cart of 2 items at 5 and 1 item at 3
totals 13. -/
theorem getTotal_double_sum_witness :
    getTotal Host.sample Coercion.sample
        (.obj [("cart_products", .arr [
          .obj [("id", .num 1), ("quantity", .num 2),
            ("product", .obj [("title", .str "a"), ("price", .num 5)])],
          .obj [("id", .num 2), ("quantity", .num 1),
            ("product", .obj [("title", .str "b"), ("price", .num 3)])]])])
      = .ok (.finite 13) := by
  have h := (getTotal_double_sum Host.sample Coercion.sample).2.2.2.2.2
    (.obj [("cart_products", .arr [
      .obj [("id", .num 1), ("quantity", .num 2),
        ("product", .obj [("title", .str "a"), ("price", .num 5)])],
      .obj [("id", .num 2), ("quantity", .num 1),
        ("product", .obj [("title", .str "b"), ("price", .num 3)])]])])
    [.obj [("id", .num 1), ("quantity", .num 2),
        ("product", .obj [("title", .str "a"), ("price", .num 5)])],
      .obj [("id", .num 2), ("quantity", .num 1),
        ("product", .obj [("title", .str "b"), ("price", .num 3)])]]
    [(5, 2), (3, 1)] (by rfl)
    (List.Forall₂.cons (by exact ⟨rfl, rfl⟩)
      (List.Forall₂.cons (by exact ⟨rfl, rfl⟩) List.Forall₂.nil))
    (by decide) (by decide)
  rw [h]
  norm_num

end CartScreen
